import Mathlib

/-!
Verification of the jquery.alignwith plug-in (src/jquery.alignwith.js).

The file shallowly embeds the position-string resolver and the alignment
calculator of the `alignWith` function. Geometry is modelled over `ℚ`
(JavaScript numbers, idealised as exact rationals); a coordinate that the
code would compute as `NaN` is modelled as `none : Option ℚ`.
-/

namespace AlignWith

/-- The characters accepted by the validation regex on line 144 of the
source: `t`, `b`, `l`, `r`, `c`, `m` (lowercase only; the regex carries no
case-insensitive flag). -/
def posAlphabet : List Char := ['t', 'b', 'l', 'r', 'c', 'm']

/-- The validity test on line 144: `/^[tblrcm]{1,4}$/.test(pos)`.
The string must be 1 to 4 characters long, each character drawn from
`posAlphabet`; no trimming and no case folding happens. -/
def validPos (s : String) : Bool :=
  decide (1 ≤ s.data.length) && decide (s.data.length ≤ 4) &&
    s.data.all (fun c => posAlphabet.contains c)

/-- The switch on lines 149-164 fleshing out a validated position string
into the pair (pT, pE) of two-character codes: the code for the element
being moved and the code for the target element. The catch-all case
returns the initial values of the placeholders pT and pE, the empty
string (lines 120-121); it is unreachable after validation. -/
def expand (pos : String) : String × String :=
  match pos.data with
  | [a] => (String.mk [a, a], String.mk [a, a])
  | [a, b] => (String.mk [a, b], String.mk [a, b])
  | [a, b, c] => (String.mk [a, b], String.mk [c, c])
  | [a, b, c, d] => (String.mk [a, b], String.mk [c, d])
  | _ => ("", "")

/-- Lines 144-164: an invalid position string is silently replaced by the
default "c" before expansion. -/
def resolve (pos : String) : String × String :=
  expand (if validPos pos then pos else "c")

/-- Case folding applied by the `i` flag the four classification regexes
carry on lines 124-127. -/
def lc (c : Char) : Char := c.toLower

/-- The regex `rXM = /^([tbcm]{2}|lr|rl)$/i` on line 124: the whole string
is two characters from {t,b,c,m}, or is exactly "lr" or "rl". -/
def rXM (s : String) : Bool :=
  match s.data.map lc with
  | [a, b] =>
      (['t', 'b', 'c', 'm'].contains a && ['t', 'b', 'c', 'm'].contains b) ||
      (a == 'l' && b == 'r') || (a == 'r' && b == 'l')
  | _ => false

/-- The regex `rXR = /^r?[rtbcm]r?$/i` on line 125: an optional `r`, one
character from {r,t,b,c,m}, an optional `r`. -/
def rXR (s : String) : Bool :=
  match s.data.map lc with
  | [a] => ['r', 't', 'b', 'c', 'm'].contains a
  | [a, b] =>
      (a == 'r' && ['r', 't', 'b', 'c', 'm'].contains b) ||
      (['r', 't', 'b', 'c', 'm'].contains a && b == 'r')
  | [a, b, c] => a == 'r' && ['r', 't', 'b', 'c', 'm'].contains b && c == 'r'
  | _ => false

/-- The regex `rYM = /^([lrcm]{2}|tb|bt)$/i` on line 126. -/
def rYM (s : String) : Bool :=
  match s.data.map lc with
  | [a, b] =>
      (['l', 'r', 'c', 'm'].contains a && ['l', 'r', 'c', 'm'].contains b) ||
      (a == 't' && b == 'b') || (a == 'b' && b == 't')
  | _ => false

/-- The regex `rYB = /^b?[lrbcm]b?$/i` on line 127. -/
def rYB (s : String) : Bool :=
  match s.data.map lc with
  | [a] => ['l', 'r', 'b', 'c', 'm'].contains a
  | [a, b] =>
      (a == 'b' && ['l', 'r', 'b', 'c', 'm'].contains b) ||
      (['l', 'r', 'b', 'c', 'm'].contains a && b == 'b')
  | [a, b, c] => a == 'b' && ['l', 'r', 'b', 'c', 'm'].contains b && c == 'b'
  | _ => false

/-- Truncation toward zero: the rounding `parseInt` applies to the decimal
rendering of a finite number. -/
def jsTrunc (q : ℚ) : ℤ := if q < 0 then -⌊-q⌋ else ⌊q⌋

/-- A value supplied for the `x` or `y` option. `num q` is a JavaScript
number; `other p` is any non-number value (for instance a string), recorded
by the result `p` of `parseInt(value, 10)` on it, with `none` standing for
`NaN`. -/
inductive JSVal where
  | num (q : ℚ)
  | other (parsed : Option ℤ)
deriving DecidableEq

/-- The strict comparison `0 !== op.x` on lines 204 and 207 is false
exactly when the value is the number 0. -/
def JSVal.isZero : JSVal → Bool
  | .num q => q == 0
  | .other _ => false

/-- Applying `parseInt(v, 10)` to an option value: `some n` when parsing
yields the integer `n`, `none` when it yields `NaN`. -/
def JSVal.parseInt10 : JSVal → Option ℤ
  | .num q => some (jsTrunc q)
  | .other p => p

/-- A computed css margin as read on lines 201-202: `px q` models a pixel
length string such as "12px", `auto` models the non-numeric "auto" value
some browsers report for an unset margin. -/
inductive CssMargin where
  | px (q : ℚ)
  | auto
deriving DecidableEq

/-- Lines 201-202: `parseInt(t.css('margin-left'), 10) || 0`. Parsing a
pixel string keeps its integer prefix (truncation toward zero); `auto`
parses to `NaN`, which `|| 0` collapses to 0. -/
def marginValue : CssMargin → ℤ
  | .px q => jsTrunc q
  | .auto => 0

/-- The options object after the `$.extend` on lines 135-142. -/
structure Options where
  x : JSVal
  y : JSVal
deriving DecidableEq

/-- Lines 135-142: caller-supplied `x`/`y` entries (absent entries as
`none`) merged over the defaults `{x: 0, y: 0}`. -/
def extendOptions (ox oy : Option JSVal) : Options :=
  { x := ox.getD (JSVal.num 0), y := oy.getD (JSVal.num 0) }

/-- A document-relative geometry snapshot of the target element: offset
(x, y) from `elem.offset()`, outer dimensions from `elem.outerWidth()` and
`elem.outerHeight()` (border and padding included, margin excluded). -/
structure Rect where
  x : ℚ
  y : ℚ
  width : ℚ
  height : ℚ
deriving DecidableEq

/-- The horizontal shift chain on lines 175-179 and 181-185: subtract (or
add) half the width when `rXM` matches the code, the full width when `rXR`
matches instead, nothing otherwise. -/
def xShift (p : String) (w : ℚ) : ℚ :=
  if rXM p then w / 2 else if rXR p then w else 0

/-- The vertical shift chain on lines 187-191 and 193-197. -/
def yShift (p : String) (h : ℚ) : ℚ :=
  if rYM p then h / 2 else if rYB p then h else 0

/-- One iteration of the `each` loop, lines 167-213: from the target
snapshot `e`, the mover's outer width `tW` and height `tH`, the two
resolved codes `pT` (mover) and `pE` (target), the mover's computed
margins and the merged options, compute the (left, top) pair written to
css. `none` models a `NaN` coordinate. -/
def alignOne (e : Rect) (tW tH : ℚ) (pT pE : String) (mL mT : CssMargin)
    (op : Options) : Option ℚ × Option ℚ :=
  let tX := e.x - xShift pT tW + xShift pE e.width - (marginValue mL : ℚ)
  let tY := e.y - yShift pT tH + yShift pE e.height - (marginValue mT : ℚ)
  let left := if op.x.isZero then some tX
    else (op.x.parseInt10).map (fun n => tX + (n : ℚ))
  let top := if op.y.isZero then some tY
    else (op.y.parseInt10).map (fun n => tY + (n : ℚ))
  (left, top)

/-- The whole `alignWith` computation for one mover: resolve the raw
position string, then run the calculator. -/
def alignWith (e : Rect) (tW tH : ℚ) (pos : String) (mL mT : CssMargin)
    (op : Options) : Option ℚ × Option ℚ :=
  let p := resolve pos
  alignOne e tW tH p.1 p.2 mL mT op

/-- Horizontal-centre classification in the words of the specification: both
characters drawn from {t,b,c,m}, or the code is exactly one `l` and one
`r`. -/
def claimHCentered (a b : Char) : Bool :=
  (['t', 'b', 'c', 'm'].contains a && ['t', 'b', 'c', 'm'].contains b) ||
  (a == 'l' && b == 'r') || (a == 'r' && b == 'l')

/-- Horizontal-end classification in the words of the specification: the
code contains `r` and is not horizontally centered. -/
def claimHEnd (a b : Char) : Bool :=
  (a == 'r' || b == 'r') && !claimHCentered a b

/-- Vertical-centre classification in the words of the specification: both
characters drawn from {l,r,c,m}, or the code is exactly one `t` and one
`b`. -/
def claimVCentered (a b : Char) : Bool :=
  (['l', 'r', 'c', 'm'].contains a && ['l', 'r', 'c', 'm'].contains b) ||
  (a == 't' && b == 'b') || (a == 'b' && b == 't')

/-- Vertical-end (bottom) classification in the words of the specification:
the code contains `b` and is not vertically centered. -/
def claimVEnd (a b : Char) : Bool :=
  (a == 'b' || b == 'b') && !claimVCentered a b

/-! Helper lemmas shared by the claim theorems. -/

lemma alpha_lower : ∀ c ∈ posAlphabet, c.toLower = c := by decide

lemma rX_class : ∀ a ∈ posAlphabet, ∀ b ∈ posAlphabet,
    rXM (String.mk [a, b]) = claimHCentered a b ∧
    rXR (String.mk [a, b]) = claimHEnd a b := by decide

lemma rY_class : ∀ a ∈ posAlphabet, ∀ b ∈ posAlphabet,
    rYM (String.mk [a, b]) = claimVCentered a b ∧
    rYB (String.mk [a, b]) = claimVEnd a b := by decide

lemma jsTrunc_intCast (n : ℤ) : jsTrunc (n : ℚ) = n := by
  unfold jsTrunc
  have h1 : (-(n : ℚ)) = ((-n : ℤ) : ℚ) := by push_cast; ring
  split
  · rw [h1, Int.floor_intCast]; omega
  · rw [Int.floor_intCast]

lemma jsTrunc_zero : jsTrunc 0 = 0 := by
  unfold jsTrunc; norm_num

lemma xShift_claim (a b : Char) (ha : a ∈ posAlphabet) (hb : b ∈ posAlphabet) (w : ℚ) :
    xShift (String.mk [a, b]) w =
      if claimHCentered a b then w / 2 else if claimHEnd a b then w else 0 := by
  have h := rX_class a ha b hb
  rw [xShift, h.1, h.2]

lemma yShift_claim (a b : Char) (ha : a ∈ posAlphabet) (hb : b ∈ posAlphabet) (h : ℚ) :
    yShift (String.mk [a, b]) h =
      if claimVCentered a b then h / 2 else if claimVEnd a b then h else 0 := by
  have h2 := rY_class a ha b hb
  rw [yShift, h2.1, h2.2]

lemma offset_num_int (tX : ℚ) (n : ℤ) :
    (if (JSVal.num (n : ℚ)).isZero then some tX
      else ((JSVal.num (n : ℚ)).parseInt10).map (fun k => tX + (k : ℚ))) = some (tX + (n : ℚ)) := by
  by_cases h : (n : ℚ) = 0
  · rw [if_pos (by simp [JSVal.isZero, h])]
    rw [h, add_zero]
  · rw [if_neg (by simp [JSVal.isZero, h])]
    simp [JSVal.parseInt10, jsTrunc_intCast]

/-- C1: for every target rectangle, mover dimensions, pair of two-character
anchor codes over the position alphabet, integer margins and integer offsets,
the computed result is: left = target.x minus (moverWidth/2 if the mover code
is horizontally centered, moverWidth if horizontally end-classed, 0 if
start-classed) plus (targetWidth/2 if the target code is horizontally
centered, targetWidth if end-classed, 0 if start-classed) minus the mover's
left margin plus offsetX; top is the symmetric expression over heights,
vertical classes, top margin and offsetY. -/
theorem C1_alignment_formula (e : Rect) (tW tH : ℚ) (a b a2 b2 : Char)
    (ha : a ∈ posAlphabet) (hb : b ∈ posAlphabet)
    (ha2 : a2 ∈ posAlphabet) (hb2 : b2 ∈ posAlphabet) (mL mT ox oy : ℤ) :
    alignOne e tW tH (String.mk [a, b]) (String.mk [a2, b2]) (CssMargin.px (mL : ℚ))
        (CssMargin.px (mT : ℚ)) ⟨JSVal.num (ox : ℚ), JSVal.num (oy : ℚ)⟩ =
      (some (e.x - (if claimHCentered a b then tW / 2 else if claimHEnd a b then tW else 0)
          + (if claimHCentered a2 b2 then e.width / 2 else if claimHEnd a2 b2 then e.width else 0)
          - (mL : ℚ) + (ox : ℚ)),
       some (e.y - (if claimVCentered a b then tH / 2 else if claimVEnd a b then tH else 0)
          + (if claimVCentered a2 b2 then e.height / 2 else if claimVEnd a2 b2 then e.height else 0)
          - (mT : ℚ) + (oy : ℚ))) := by
  rw [alignOne]
  rw [xShift_claim a b ha hb, xShift_claim a2 b2 ha2 hb2,
    yShift_claim a b ha hb, yShift_claim a2 b2 ha2 hb2]
  simp only [marginValue, jsTrunc_intCast]
  rw [offset_num_int, offset_num_int]

/-- Witness for C1 at concrete inputs. -/
theorem C1_witness :
    alignOne ⟨100, 200, 80, 60⟩ 40 20 (String.mk ['c', 'c']) (String.mk ['r', 'r'])
        (CssMargin.px ((3 : ℤ) : ℚ)) (CssMargin.px ((4 : ℤ) : ℚ))
        ⟨JSVal.num ((5 : ℤ) : ℚ), JSVal.num ((6 : ℤ) : ℚ)⟩ = (some 162, some 222) := by
  have h := C1_alignment_formula ⟨100, 200, 80, 60⟩ 40 20 'c' 'c' 'r' 'r'
    (by decide) (by decide) (by decide) (by decide) 3 4 5 6
  rw [h]
  norm_num [show claimHCentered 'c' 'c' = true from by decide,
    show claimHCentered 'r' 'r' = false from by decide,
    show claimHEnd 'r' 'r' = true from by decide,
    show claimVCentered 'c' 'c' = true from by decide,
    show claimVCentered 'r' 'r' = true from by decide]

/-- C2: for every 2-character code over the alphabet {t,b,l,r,c,m}: the code
is horizontally centered (the rXM branch fires) exactly when both characters
are drawn from {t,b,c,m} or the code is one l and one r; it is horizontally
end-classed (the rXR else-branch fires) exactly when it contains r and is not
horizontally centered; otherwise no horizontal shift applies. The vertical
classification mirrors this with {t,b} in place of {l,r}. -/
theorem C2_axis_classification : ∀ a ∈ posAlphabet, ∀ b ∈ posAlphabet,
    (rXM (String.mk [a, b]) = true ↔ claimHCentered a b = true)
    ∧ ((rXM (String.mk [a, b]) = false ∧ rXR (String.mk [a, b]) = true) ↔ claimHEnd a b = true)
    ∧ (rYM (String.mk [a, b]) = true ↔ claimVCentered a b = true)
    ∧ ((rYM (String.mk [a, b]) = false ∧ rYB (String.mk [a, b]) = true) ↔ claimVEnd a b = true) := by
  decide

/-- Witness for C2 at the code "lr". -/
theorem C2_witness :
    (rXM (String.mk ['l', 'r']) = true ↔ claimHCentered 'l' 'r' = true)
    ∧ ((rYM (String.mk ['l', 'r']) = false ∧ rYB (String.mk ['l', 'r']) = true)
        ↔ claimVEnd 'l' 'r' = true) := by
  have h := C2_axis_classification 'l' (by decide) 'r' (by decide)
  exact ⟨h.1, h.2.2.2⟩

/-- C3: for every validated position string of length 1 to 4 over the
alphabet, the resolver expands it as: length 1 gives mover code = target
code = the character doubled; length 2 gives mover code = target code = the
string verbatim; length 3 gives mover code = the first two characters and
target code = the third character doubled; length 4 gives mover code = the
first two characters and target code = the last two characters. -/
theorem C3_expansion : ∀ a ∈ posAlphabet, ∀ b ∈ posAlphabet, ∀ c ∈ posAlphabet,
    ∀ d ∈ posAlphabet,
    resolve (String.mk [a]) = (String.mk [a, a], String.mk [a, a])
    ∧ resolve (String.mk [a, b]) = (String.mk [a, b], String.mk [a, b])
    ∧ resolve (String.mk [a, b, c]) = (String.mk [a, b], String.mk [c, c])
    ∧ resolve (String.mk [a, b, c, d]) = (String.mk [a, b], String.mk [c, d]) := by
  decide

/-- Witness for C3 at "tlr" and "tlrb". -/
theorem C3_witness :
    resolve (String.mk ['t', 'l', 'r']) = (String.mk ['t', 'l'], String.mk ['r', 'r'])
    ∧ resolve (String.mk ['t', 'l', 'r', 'b']) = (String.mk ['t', 'l'], String.mk ['r', 'b']) := by
  have h := C3_expansion 't' (by decide) 'l' (by decide) 'r' (by decide) 'b' (by decide)
  exact ⟨h.2.2.1, h.2.2.2⟩

/-- C4 counterexample: "TL" is two characters drawn from the alphabet up to
case, and " tl " trims to a valid string, yet the validation test (which has
no case-insensitive flag and performs no trimming) rejects both and the
resolver silently falls back to the centre default. -/
theorem C4_counterexample :
    ("TL".data.all (fun c => decide (c.toLower ∈ posAlphabet))) = true
    ∧ "TL".data.length = 2
    ∧ validPos "TL" = false
    ∧ resolve "TL" = ("cc", "cc")
    ∧ validPos " tl " = false
    ∧ resolve " tl " = ("cc", "cc") := by decide

/-- C4 (amended): the resolver accepts a position string exactly when it
consists, with no trimming and no case folding, of 1 to 4 lowercase
characters drawn from {t,b,l,r,c,m}; every other string - the empty string,
oversized strings, uppercase or whitespace-padded strings, and strings with
foreign characters such as "xyz123" - is silently replaced with the default
"c" (expanding to the code pair ("cc", "cc")) and the call never fails. -/
theorem C4_validation (s : String) :
    (validPos s = true ↔
      1 ≤ s.data.length ∧ s.data.length ≤ 4 ∧ ∀ c ∈ s.data, c ∈ posAlphabet)
    ∧ (validPos s = false → resolve s = ("cc", "cc")) := by
  constructor
  · unfold validPos
    simp [List.all_eq_true, and_assoc]
  · intro h
    rw [resolve, if_neg (by simp [h])]
    decide

/-- Witness for C4 at the invalid string "xyz123". -/
theorem C4_witness : validPos "xyz123" = false ∧ resolve "xyz123" = ("cc", "cc") := by
  have h := C4_validation "xyz123"
  exact ⟨by decide, h.2 (by decide)⟩

/-- C5 counterexample: a non-numeric x offset value (whose parseInt is NaN)
makes the computed left coordinate NaN (modelled as none), so offsets are not
coerced to zero and the result is not always a real number. -/
theorem C5_counterexample :
    (alignOne ⟨100, 200, 80, 60⟩ 40 20 "cc" "cc" (CssMargin.px 0) (CssMargin.px 0)
      ⟨JSVal.other none, JSVal.num 0⟩).1 = none := by
  simp [alignOne, JSVal.isZero, JSVal.parseInt10]

/-- C5 (amended): a missing or non-numeric mover margin value is coerced to
zero, and a missing offset value defaults to zero, so in those cases the
computed left and top coordinates are real numbers; but a supplied
non-numeric offset value (x or y) is parsed to NaN, which propagates into the
corresponding coordinate. -/
theorem C5_margin_offset_coercion (e : Rect) (tW tH : ℚ) (pT pE : String)
    (mL mT : CssMargin) (ox oy : JSVal) :
    (∀ op, alignOne e tW tH pT pE CssMargin.auto mT op
        = alignOne e tW tH pT pE (CssMargin.px 0) mT op)
    ∧ (∀ op, alignOne e tW tH pT pE mL CssMargin.auto op
        = alignOne e tW tH pT pE mL (CssMargin.px 0) op)
    ∧ ((alignOne e tW tH pT pE mL mT (extendOptions none none)).1.isSome = true
        ∧ (alignOne e tW tH pT pE mL mT (extendOptions none none)).2.isSome = true)
    ∧ (alignOne e tW tH pT pE mL mT ⟨JSVal.other none, oy⟩).1 = none
    ∧ (alignOne e tW tH pT pE mL mT ⟨ox, JSVal.other none⟩).2 = none := by
  refine ⟨?_, ?_, ⟨?_, ?_⟩, ?_, ?_⟩
  · intro op; simp [alignOne, marginValue, jsTrunc_zero]
  · intro op; simp [alignOne, marginValue, jsTrunc_zero]
  · simp [alignOne, extendOptions, JSVal.isZero]
  · simp [alignOne, extendOptions, JSVal.isZero]
  · simp [alignOne, JSVal.isZero, JSVal.parseInt10]
  · simp [alignOne, JSVal.isZero, JSVal.parseInt10]

/-- C6: for all rectangles with zero margins and zero offsets, aligning with
position code "c" (or the empty string) yields left = target.x +
target.width/2 - moverWidth/2 and top = target.y + target.height/2 -
moverHeight/2, the same result as the explicit 4-character code "cccc". -/
theorem C6_center_default (tW tH : ℚ) (e : Rect) :
    alignWith e tW tH "c" (CssMargin.px 0) (CssMargin.px 0) ⟨JSVal.num 0, JSVal.num 0⟩
        = (some (e.x + e.width / 2 - tW / 2), some (e.y + e.height / 2 - tH / 2))
    ∧ alignWith e tW tH "" (CssMargin.px 0) (CssMargin.px 0) ⟨JSVal.num 0, JSVal.num 0⟩
        = (some (e.x + e.width / 2 - tW / 2), some (e.y + e.height / 2 - tH / 2))
    ∧ alignWith e tW tH "cccc" (CssMargin.px 0) (CssMargin.px 0) ⟨JSVal.num 0, JSVal.num 0⟩
        = (some (e.x + e.width / 2 - tW / 2), some (e.y + e.height / 2 - tH / 2)) := by
  have hc : resolve "c" = ("cc", "cc") := by decide
  have he : resolve "" = ("cc", "cc") := by decide
  have h4 : resolve "cccc" = ("cc", "cc") := by decide
  have hx : rXM "cc" = true := by decide
  have hy : rYM "cc" = true := by decide
  refine ⟨?_, ?_, ?_⟩ <;>
  · simp only [alignWith, hc, he, h4, alignOne, xShift, yShift, hx, hy, if_true,
      marginValue, jsTrunc_zero, JSVal.isZero, Int.cast_zero, beq_self_eq_true]
    norm_num
    ring_nf
    constructor <;> ring_nf

/-- C7: for a mover of width 40 and height 20 with zero margins, target
rectangle {x:100, y:200, width:80, height:60} and zero offsets, position code
"tl" yields {left:100, top:200} and position code "tlr" yields {left:180,
top:230}. -/
theorem C7_scenarios :
    alignWith ⟨100, 200, 80, 60⟩ 40 20 "tl" (CssMargin.px 0) (CssMargin.px 0)
        ⟨JSVal.num 0, JSVal.num 0⟩ = (some 100, some 200)
    ∧ alignWith ⟨100, 200, 80, 60⟩ 40 20 "tlr" (CssMargin.px 0) (CssMargin.px 0)
        ⟨JSVal.num 0, JSVal.num 0⟩ = (some 180, some 230) := by
  have h1 : resolve "tl" = ("tl", "tl") := by decide
  have h2 : resolve "tlr" = ("tl", "rr") := by decide
  have ha : rXM "tl" = false ∧ rXR "tl" = false ∧ rYM "tl" = false ∧ rYB "tl" = false := by
    decide
  have hb : rXM "rr" = false ∧ rXR "rr" = true ∧ rYM "rr" = true := by decide
  constructor <;>
  · simp only [alignWith, h1, h2, alignOne, xShift, yShift, ha.1, ha.2.1, ha.2.2.1, ha.2.2.2,
      hb.1, hb.2.1, hb.2.2, if_true, if_false, Bool.false_eq_true, marginValue, jsTrunc_zero,
      JSVal.isZero]
    norm_num

/-- C8: an offset of exactly zero leaves the corresponding coordinate
untouched (the addition branch is skipped and the exact rational geometry
expression is returned), and a non-zero numeric offset is first truncated
toward zero to an integer before being added; the computed geometry
(coordinates, widths, heights and their halves) is never truncated, as the
exact formulas on the right-hand sides show. -/
theorem C8_offset_truncation (e : Rect) (tW tH : ℚ) (pT pE : String)
    (mL mT : CssMargin) (q : ℚ) (hq : q ≠ 0) :
    alignOne e tW tH pT pE mL mT ⟨JSVal.num 0, JSVal.num 0⟩
        = (some (e.x - xShift pT tW + xShift pE e.width - (marginValue mL : ℚ)),
           some (e.y - yShift pT tH + yShift pE e.height - (marginValue mT : ℚ)))
    ∧ alignOne e tW tH pT pE mL mT ⟨JSVal.num q, JSVal.num q⟩
        = (some (e.x - xShift pT tW + xShift pE e.width - (marginValue mL : ℚ)
              + (jsTrunc q : ℚ)),
           some (e.y - yShift pT tH + yShift pE e.height - (marginValue mT : ℚ)
              + (jsTrunc q : ℚ))) := by
  constructor
  · simp [alignOne, JSVal.isZero]
  · have hz : (JSVal.num q).isZero = false := by simp [JSVal.isZero, hq]
    simp [alignOne, hz, JSVal.parseInt10]

/-- Witness for C8 with fractional geometry and the fractional offset 5.5,
which is truncated to 5 while the geometry halves pass through exactly. -/
theorem C8_witness :
    alignOne ⟨100, 200, 80, 60⟩ 41 21 "cc" "rr" (CssMargin.px 0) (CssMargin.px 0)
        ⟨JSVal.num (11 / 2), JSVal.num (11 / 2)⟩ = (some (329 / 2), some (449 / 2)) := by
  have h := (C8_offset_truncation ⟨100, 200, 80, 60⟩ 41 21 "cc" "rr" (CssMargin.px 0)
    (CssMargin.px 0) (11 / 2) (by norm_num)).2
  rw [h]
  have hx : rXM "cc" = true := by decide
  have hy : rYM "cc" = true := by decide
  have hb : rXM "rr" = false ∧ rXR "rr" = true ∧ rYM "rr" = true := by decide
  have ht : jsTrunc (11 / 2) = 5 := by
    unfold jsTrunc
    rw [if_neg (by norm_num)]
    rw [show ⌊(11 / 2 : ℚ)⌋ = 5 from by
      rw [Int.floor_eq_iff]; norm_num]
  simp only [xShift, yShift, hx, hy, hb.1, hb.2.1, hb.2.2, if_true, if_false,
    Bool.false_eq_true, marginValue, jsTrunc_zero, ht]
  norm_num

/-- C9: for every 2-character code over the alphabet, the centre pattern and
the end pattern of the same axis are never both matched, so exactly one
horizontal and one vertical class applies; and swapping the two characters of
a code leaves all four pattern tests unchanged. -/
theorem C9_class_invariants : ∀ a ∈ posAlphabet, ∀ b ∈ posAlphabet,
    ((rXM (String.mk [a, b]) && rXR (String.mk [a, b])) = false)
    ∧ ((rYM (String.mk [a, b]) && rYB (String.mk [a, b])) = false)
    ∧ rXM (String.mk [b, a]) = rXM (String.mk [a, b])
    ∧ rXR (String.mk [b, a]) = rXR (String.mk [a, b])
    ∧ rYM (String.mk [b, a]) = rYM (String.mk [a, b])
    ∧ rYB (String.mk [b, a]) = rYB (String.mk [a, b]) := by decide

/-- Witness for C9 at the code "tl" and its swap "lt". -/
theorem C9_witness :
    ((rXM (String.mk ['t', 'l']) && rXR (String.mk ['t', 'l'])) = false)
    ∧ rXM (String.mk ['l', 't']) = rXM (String.mk ['t', 'l'])
    ∧ rYM (String.mk ['l', 't']) = rYM (String.mk ['t', 'l']) := by
  have h := C9_class_invariants 't' (by decide) 'l' (by decide)
  exact ⟨h.1, h.2.2.1, h.2.2.2.2.1⟩

lemma pair_mem_alpha (a b : Char) (ha : a ∈ posAlphabet) (hb : b ∈ posAlphabet) :
    ∀ c ∈ (String.mk [a, b]).data, c ∈ posAlphabet ∧ c.toLower = c := by
  intro x hx
  have hx2 : x = a ∨ x = b := by simpa using hx
  rcases hx2 with rfl | rfl
  · exact ⟨ha, alpha_lower _ ha⟩
  · exact ⟨hb, alpha_lower _ hb⟩

/-- C10: for every input position string whatsoever, valid or invalid, the
resolution stage produces a mover code and a target code that each have
length exactly 2 and consist only of lowercase characters from the alphabet
{t,b,l,r,c,m}. -/
theorem C10_code_invariant (s : String) :
    (resolve s).1.data.length = 2 ∧ (resolve s).2.data.length = 2
    ∧ (∀ c ∈ (resolve s).1.data, c ∈ posAlphabet ∧ c.toLower = c)
    ∧ (∀ c ∈ (resolve s).2.data, c ∈ posAlphabet ∧ c.toLower = c) := by
  by_cases h : validPos s = true
  · have hv := h
    unfold validPos at hv
    simp only [Bool.and_eq_true, List.all_eq_true, decide_eq_true_eq] at hv
    obtain ⟨⟨h1, h2⟩, hmemb⟩ := hv
    have hmem : ∀ c ∈ s.data, c ∈ posAlphabet := by
      intro c hc
      simpa using hmemb c hc
    rw [resolve, if_pos h]
    rcases hs : s.data with _ | ⟨a, _ | ⟨b, _ | ⟨c, _ | ⟨d, rest⟩⟩⟩⟩
    · rw [hs] at h1; simp at h1
    · rw [expand, hs]
      have ha := hmem a (by rw [hs]; exact List.mem_cons_self a [])
      exact ⟨rfl, rfl, pair_mem_alpha a a ha ha, pair_mem_alpha a a ha ha⟩
    · rw [expand, hs]
      have ha := hmem a (by rw [hs]; simp)
      have hb := hmem b (by rw [hs]; simp)
      exact ⟨rfl, rfl, pair_mem_alpha a b ha hb, pair_mem_alpha a b ha hb⟩
    · rw [expand, hs]
      have ha := hmem a (by rw [hs]; simp)
      have hb := hmem b (by rw [hs]; simp)
      have hc := hmem c (by rw [hs]; simp)
      exact ⟨rfl, rfl, pair_mem_alpha a b ha hb, pair_mem_alpha c c hc hc⟩
    · rcases rest with _ | ⟨e2, rest2⟩
      · rw [expand, hs]
        have ha := hmem a (by rw [hs]; simp)
        have hb := hmem b (by rw [hs]; simp)
        have hc := hmem c (by rw [hs]; simp)
        have hd := hmem d (by rw [hs]; simp)
        exact ⟨rfl, rfl, pair_mem_alpha a b ha hb, pair_mem_alpha c d hc hd⟩
      · rw [hs] at h2; simp at h2
  · rw [resolve, if_neg (by simpa using h)]
    decide

/-- Witness for C10 at the invalid string "xy!". -/
theorem C10_witness :
    (resolve "xy!").1.data.length = 2 ∧ ('c' ∈ posAlphabet ∧ 'c'.toLower = 'c') := by
  have h := C10_code_invariant "xy!"
  exact ⟨h.1, h.2.2.1 'c' (by decide)⟩

end AlignWith
